import Mathlib

/-!
Verification of the uv-metrics combinator core against its specification.

The Python source is shallowly embedded: dictionaries become association
lists (`List (String × V)`), preserving insertion/iteration order; stateful
reporters become explicit state-passing functions; fallible code returns
`Except`.  Each definition carries a doc comment naming the source function
it embeds.
-/

set_option maxHeartbeats 1000000

/-- Python dict lookup `m[k]` / `m.get(k)` on an insertion-ordered
association list with unique keys (first matching entry wins). -/
def lookupA {V : Type} : List (String × V) → String → Option V
  | [], _ => none
  | (k', v) :: rest, k => if k' = k then some v else lookupA rest k

/-- Python dict assignment `d[k] = v`: replace in place when the key is
present, append a fresh entry otherwise. -/
def dictInsert {V : Type} : List (String × V) → String → V → List (String × V)
  | [], k, v => [(k, v)]
  | (k', v') :: rest, k, v =>
    if k' = k then (k, v) :: rest else (k', v') :: dictInsert rest k v

/-- `store.setdefault(k, []).append(v)` from `MemoryReporter.report_all`
(src/uv/reporter/store.py): append `v` to the list under `k`, creating the
entry when absent. -/
def setdefaultAppend {V : Type} :
    List (String × List V) → String → V → List (String × List V)
  | [], k, v => [(k, [v])]
  | (k', vs) :: rest, k, v =>
    if k' = k then (k', vs ++ [v]) :: rest else (k', vs) :: setdefaultAppend rest k v

theorem lookupA_setdefaultAppend_self {V : Type} (s : List (String × List V))
    (k : String) (v : V) :
    lookupA (setdefaultAppend s k v) k = some ((lookupA s k).getD [] ++ [v]) := by
  induction s with
  | nil => simp [setdefaultAppend, lookupA]
  | cons hd tl ih =>
    obtain ⟨k', vs⟩ := hd
    by_cases h : k' = k
    · simp [setdefaultAppend, lookupA, h]
    · simp [setdefaultAppend, lookupA, h, ih]

theorem lookupA_map_pair {V : Type} (ks : List String) (f : String → V)
    (k : String) :
    lookupA (ks.map (fun x => (x, f x))) k =
      if k ∈ ks then some (f k) else none := by
  induction ks with
  | nil => simp [lookupA]
  | cons a tl ih =>
    by_cases h : a = k
    · subst h
      simp [lookupA]
    · simp [lookupA, h, ih, Ne.symm h]

/- ### C1: the mutual default implementations of report/report_all and
read/read_all (src/uv/reporter/base.py, src/uv/reader/base.py) -/

/-- `AbstractReporter.report_all` default (src/uv/reporter/base.py):
`for k, v in m.items(): self.report(step, k, v)`, threaded through an
explicit reporter state `σ`. -/
def reportAllDefault {V σ : Type} (report : Nat → String → V → σ → σ)
    (step : Nat) (m : List (String × V)) (s : σ) : σ :=
  m.foldl (fun s kv => report step kv.1 kv.2 s) s

/-- `AbstractReporter.report` default (src/uv/reporter/base.py):
`return self.report_all(step, (k maps to v))`. -/
def reportDefault {V σ : Type} (reportAll : Nat → List (String × V) → σ → σ)
    (step : Nat) (k : String) (v : V) (s : σ) : σ :=
  reportAll step [(k, v)] s

/-- `AbstractReader.read_all` default (src/uv/reader/base.py): the dict
comprehension mapping each requested key `k` to `self.read(k)`. -/
def readAllDefault {V : Type} (read : String → List V) (ks : List String) :
    List (String × List V) :=
  ks.map (fun k => (k, read k))

/-- `AbstractReader.read` default (src/uv/reader/base.py):
`return self.read_all([k])[k]`; the dict subscript is modelled by `lookupA`
(`none` models a `KeyError`). -/
def readDefault {V : Type} (readAll : List String → List (String × List V))
    (k : String) : Option (List V) :=
  lookupA (readAll [k]) k

/-- C1: Mutual-default law.  The default `report_all(step, m)` performs
exactly one `report(step, k, v)` call per entry of `m`, in iteration order
(stated over a call-recording reporter); the default `report(step, k, v)`
equals `report_all(step, (k maps to v))`; the default `read_all(ks)` equals
the map of every `k` in `ks` to `read(k)`; and the default `read(k)` equals
`read_all([k])[k]`, which for a reader overriding only `read` recovers
exactly `read k`. -/
theorem uv_C1_mutual_default_law :
    (∀ (V : Type) (step : Nat) (m : List (String × V))
        (tr : List (Nat × String × V)),
      reportAllDefault (fun st k v tr => tr ++ [(st, k, v)]) step m tr =
        tr ++ m.map (fun kv => (step, kv.1, kv.2))) ∧
    (∀ (V σ : Type) (reportAll : Nat → List (String × V) → σ → σ)
        (step : Nat) (k : String) (v : V) (s : σ),
      reportDefault reportAll step k v s = reportAll step [(k, v)] s) ∧
    (∀ (V : Type) (read : String → List V) (ks : List String),
      readAllDefault read ks = ks.map (fun k => (k, read k))) ∧
    (∀ (V : Type) (read : String → List V) (k : String),
      readDefault (readAllDefault read) k = some (read k)) := by
  refine ⟨?_, ?_, ?_, ?_⟩
  · intro V step m
    induction m with
    | nil => intro tr; simp [reportAllDefault]
    | cons hd tl ih =>
      intro tr
      simp only [reportAllDefault, List.foldl_cons, List.map_cons] at *
      rw [ih]
      simp
  · intro V σ reportAll step k v s
    rfl
  · intro V read ks
    rfl
  · intro V read k
    simp [readDefault, readAllDefault, lookupA]

/- ### Attachment model (src/uv/util/attachment.py, src/uv/util/__init__.py) -/

/-- `t.Attachment = Union[str, List[str]]` (src/uv/types.py): a single
string or a list of string segments. -/
inductive Attachment where
  | str (s : String)
  | segs (xs : List String)
deriving DecidableEq

/-- `uv.util.wrap` (src/uv/util/__init__.py): a list is returned unchanged,
anything else is wrapped in a singleton list. -/
def wrap : Attachment → List String
  | .str s => [s]
  | .segs xs => xs

/-- `attach_s(s, a, prefix)` (src/uv/util/attachment.py): join the
attachment segments and the key with the separator `.`, attachment first
when `isPre` is true, key first otherwise.  Keys are modelled
post-stringification (`str(s)` is the identity here). -/
def attach_s (s : String) (a : Attachment) (isPre : Bool) : String :=
  if isPre then String.intercalate "." (wrap a ++ [s])
  else String.intercalate "." ([s] ++ wrap a)

/-- `attach(m, a, prefix)` (src/uv/util/attachment.py): attach to every key
of the dictionary, preserving values. -/
def attachMap {V : Type} (m : List (String × V)) (a : Attachment)
    (isPre : Bool) : List (String × V) :=
  m.map (fun kv => (attach_s kv.1 a isPre, kv.2))

/-- `attach_iter(xs, a, prefix)` (src/uv/util/attachment.py): attach to
every key in the iterable. -/
def attachIter (ks : List String) (a : Attachment) (isPre : Bool) :
    List String :=
  ks.map (fun k => attach_s k a isPre)

/- ### Memory backend (src/uv/reporter/store.py, src/uv/reader/store.py) -/

/-- `MemoryReporter.report_all` (src/uv/reporter/store.py): append each
value of the batch to its key's list via `setdefault`. The step is not
stored. -/
def memReporterReportAll {V : Type} (_step : Nat) (m : List (String × V))
    (store : List (String × List V)) : List (String × List V) :=
  m.foldl (fun st kv => setdefaultAppend st kv.1 kv.2) store

/-- `MemoryReporter.report`: not overridden, so it is the inherited
`AbstractReporter.report` default, `report_all(step, (k maps to v))`. -/
def memReporterReport {V : Type} (step : Nat) (k : String) (v : V)
    (store : List (String × List V)) : List (String × List V) :=
  memReporterReportAll step [(k, v)] store

/-- `MemoryReader.read` (src/uv/reader/store.py):
`self._m.get(str(k), [])`. -/
def memReaderRead {V : Type} (store : List (String × List V)) (k : String) :
    List V :=
  (lookupA store k).getD []

/-- `MemoryReader.read_all` (src/uv/reader/store.py): the dict
comprehension mapping each `str(k)` to `self._m.get(str(k), [])`. -/
def memReaderReadAll {V : Type} (store : List (String × List V))
    (ks : List String) : List (String × List V) :=
  ks.map (fun k => (k, (lookupA store k).getD []))

/- ### Prefixed and suffixed wrappers (src/uv/reader/base.py,
src/uv/reporter/base.py) -/

/-- `PrefixedReader.read` (src/uv/reader/base.py):
`self._base.read(attach_s(k, self._prefix, prefix=True))`. -/
def prefixedReaderRead {V : Type} (base : String → List V) (a : Attachment)
    (k : String) : List V :=
  base (attach_s k a true)

/-- `SuffixedReader.read` (src/uv/reader/base.py):
`self._base.read(attach_s(k, self._suffix, prefix=False))`. -/
def suffixedReaderRead {V : Type} (base : String → List V) (a : Attachment)
    (k : String) : List V :=
  base (attach_s k a false)

/-- `PrefixedReader.read_all` (src/uv/reader/base.py):
`self._base.read_all(attach_iter(ks, self._prefix, prefix=True))`. -/
def prefixedReaderReadAll {V : Type}
    (baseAll : List String → List (String × List V)) (a : Attachment)
    (ks : List String) : List (String × List V) :=
  baseAll (attachIter ks a true)

/-- `SuffixedReader.read_all` (src/uv/reader/base.py). -/
def suffixedReaderReadAll {V : Type}
    (baseAll : List String → List (String × List V)) (a : Attachment)
    (ks : List String) : List (String × List V) :=
  baseAll (attachIter ks a false)

/-- `PrefixedReporter.report` (src/uv/reporter/base.py):
`self._base.report(step, attach_s(k, self._prefix, prefix=True), v)`. -/
def prefixedReporterReport {V σ : Type} (base : Nat → String → V → σ → σ)
    (a : Attachment) (step : Nat) (k : String) (v : V) (s : σ) : σ :=
  base step (attach_s k a true) v s

/-- `SuffixedReporter.report` (src/uv/reporter/base.py). -/
def suffixedReporterReport {V σ : Type} (base : Nat → String → V → σ → σ)
    (a : Attachment) (step : Nat) (k : String) (v : V) (s : σ) : σ :=
  base step (attach_s k a false) v s

/-- C2: Attachment round-trip.  Reading `k` through a wrapped reader equals
reading the attached key through the base reader, in both prefix and suffix
mode; and a value written through a Prefixed/SuffixedReporter over the
in-memory backend is recovered under the original key by a reader carrying
the same attachment. -/
theorem uv_C2_attachment_round_trip :
    (∀ (V : Type) (base : String → List V) (a : Attachment) (k : String),
      prefixedReaderRead base a k = base (attach_s k a true)) ∧
    (∀ (V : Type) (base : String → List V) (a : Attachment) (k : String),
      suffixedReaderRead base a k = base (attach_s k a false)) ∧
    (∀ (V : Type) (store : List (String × List V)) (a : Attachment)
        (step : Nat) (k : String) (v : V),
      prefixedReaderRead
          (memReaderRead (prefixedReporterReport memReporterReport a step k v store))
          a k
        = memReaderRead store (attach_s k a true) ++ [v]) ∧
    (∀ (V : Type) (store : List (String × List V)) (a : Attachment)
        (step : Nat) (k : String) (v : V),
      suffixedReaderRead
          (memReaderRead (suffixedReporterReport memReporterReport a step k v store))
          a k
        = memReaderRead store (attach_s k a false) ++ [v]) := by
  refine ⟨fun V base a k => rfl, fun V base a k => rfl, ?_, ?_⟩
  · intro V store a step k v
    simp [prefixedReaderRead, prefixedReporterReport, memReporterReport,
      memReporterReportAll, memReaderRead, lookupA_setdefaultAppend_self]
  · intro V store a step k v
    simp [suffixedReaderRead, suffixedReporterReport, memReporterReport,
      memReporterReportAll, memReaderRead, lookupA_setdefaultAppend_self]

/- ### C3: scoped active reporter (src/uv/reporter/state.py) -/

/-- `get_reporter()` (src/uv/reporter/state.py): the active reporter when
one is set, else the null reporter. -/
def getReporter {R : Type} (active : Option R) (nullReporter : R) : R :=
  match active with
  | some r => r
  | none => nullReporter

/-- The `active_reporter(r)` generator-based context manager
(src/uv/reporter/state.py), run against a scope body.  The body receives
the global `_active_reporter` cell (set to `some r` on entry) and returns
the cell as it left it together with a normal result or a raised exception.
The source has no try/finally around its `yield`, so the line restoring
`old_reporter` runs only when the body completes normally; when the body
raises, CPython rethrows into the generator at the yield point and the
restore is skipped. -/
def activeReporterScope {R E A : Type} (r : R)
    (body : Option R → Option R × Except E A) (g : Option R) :
    Option R × Except E A :=
  let old := g
  match body (some r) with
  | (_, Except.ok a) => (old, Except.ok a)
  | (g2, Except.error e) => (g2, Except.error e)

/-- C3: evaluation at the failing input.  Entering `active_reporter 1` from
previous active reporter `0` makes `1` the reporter seen by the body
(and by `get_reporter()`), and on normal exit the previous reporter `0` is
restored; but when the body raises, the global is left at `some 1` — the
previous reporter is NOT restored, contradicting the claim's
"on every exit path, including exceptions". -/
theorem uv_C3_active_reporter_not_restored_on_raise :
    activeReporterScope 1
        (fun g => (g, (Except.error "boom" : Except String Nat))) (some 0)
        = (some 1, Except.error "boom") ∧
    getReporter (activeReporterScope 1
        (fun g => (g, (Except.error "boom" : Except String Nat)))
        (some 0)).1 (0 : Nat) = 1 ∧
    activeReporterScope 1
        (fun g => (g, (Except.ok 7 : Except String Nat))) (some 0)
        = (some 0, Except.ok 7) ∧
    getReporter (some (1 : Nat)) 0 = 1 := by
  refine ⟨rfl, rfl, rfl, rfl⟩

/- ### C4: measurement manager interval validation
(src/uv/manager/manager.py, src/uv/experimental/manager/impl.py) -/

/-- A measurement spec dict: `name`, `interval`, `function`
(the function type is abstract; the claims do not evaluate it). -/
structure MeasurementSpec (F : Type) where
  name : String
  interval : Int
  function : F
deriving DecidableEq

/-- `MeasurementManager.add_measurement` (src/uv/manager/manager.py): store
the interval and function under the name.  The source performs no
validation of the interval. -/
def addMeasurementLegacy {F : Type} (measurements : List (String × (Int × F)))
    (spec : MeasurementSpec F) : List (String × (Int × F)) :=
  dictInsert measurements spec.name (spec.interval, spec.function)

/-- `MeasurementManager.add_measurement`
(src/uv/experimental/manager/impl.py): raise a ValueError when
`interval <= 0`, else register the measurement.  The Python message reads
"measurement_spec interval must be greater than zero". -/
def addMeasurementExperimental {F : Type}
    (measurements : List (String × (Int × F))) (spec : MeasurementSpec F) :
    Except String (List (String × (Int × F))) :=
  if spec.interval ≤ 0 then
    Except.error "interval must be greater than zero"
  else
    Except.ok (dictInsert measurements spec.name (spec.interval, spec.function))

/-- C4: evaluation at the failing input.  Registering a spec with interval
`0` on the legacy manager (src/uv/manager/manager.py) raises nothing and
changes the measurement set — contradicting the claim (and the repo's own
test, which expects an exception for intervals `-10` and `0`) — while the
experimental manager rejects intervals `0` and `-10` at registration time
and accepts interval `10`. -/
theorem uv_C4_interval_validation_divergence :
    addMeasurementLegacy ([] : List (String × (Int × Unit))) ⟨"L2", 0, ()⟩
        = [("L2", (0, ()))] ∧
    addMeasurementLegacy ([] : List (String × (Int × Unit))) ⟨"L2", 0, ()⟩
        ≠ [] ∧
    addMeasurementExperimental ([] : List (String × (Int × Unit)))
        ⟨"L2", 0, ()⟩ = Except.error "interval must be greater than zero" ∧
    addMeasurementExperimental ([] : List (String × (Int × Unit)))
        ⟨"L2", -10, ()⟩ = Except.error "interval must be greater than zero" ∧
    addMeasurementExperimental ([] : List (String × (Int × Unit)))
        ⟨"L2", 10, ()⟩ = Except.ok [("L2", (10, ()))] := by
  refine ⟨rfl, by decide, rfl, rfl, rfl⟩

/- ### C5: nested-map flattening (src/uv/mlflow/utils.py) -/

mutual
/-- A Python nested-dict value: either a leaf metric value or a nested
mapping (`collections.MutableMapping`). -/
inductive NVal (V : Type) where
  | leaf (v : V)
  | node (m : NDict V)

/-- An insertion-ordered nested dictionary of string keys. -/
inductive NDict (V : Type) where
  | nil
  | cons (k : String) (v : NVal V) (rest : NDict V)
end

/-- `new_key = parent_key + sep + k if parent_key else k` from `flatten`
(src/uv/mlflow/utils.py); the empty parent string is falsy. -/
def joinKey (parent sep k : String) : String :=
  if parent = "" then k else parent ++ sep ++ k

/-- The `items` list accumulated by `flatten` (src/uv/mlflow/utils.py):
recurse into mapping values, emit `(new_key, v)` for leaves, in iteration
order. -/
def flattenItems {V : Type} : NDict V → String → String → List (String × V)
  | .nil, _, _ => []
  | .cons k (.leaf v) rest, p, sep =>
    (joinKey p sep k, v) :: flattenItems rest p sep
  | .cons k (.node m) rest, p, sep =>
    flattenItems m (joinKey p sep k) sep ++ flattenItems rest p sep

/-- `flatten(d, parent_key='', sep=':')` (src/uv/mlflow/utils.py): collect
the items and return `dict(items)` — later items silently overwrite earlier
ones with the same key. -/
def flatten {V : Type} (d : NDict V) (parentKey sep : String) :
    List (String × V) :=
  (flattenItems d parentKey sep).foldl (fun acc kv => dictInsert acc kv.1 kv.2) []

/-- C5: evaluation at the failing input.  For the colliding nested map with
entries `a` mapping to a nested dict with entry `b` mapping to `1`, and
`a:b` mapping to `2` (separator `:`), the two paths collapse to the same
flattened key `a:b`, and `flatten` raises nothing: it silently returns the
later value `2`, discarding `1` — contradicting the claim (and the repo's
own collision test, which expects a ValueError).  On a collision-free map
the flat map of joined paths is returned. -/
theorem uv_C5_flatten_collision_not_detected :
    flatten (NDict.cons "a" (NVal.node (NDict.cons "b" (NVal.leaf (1 : Nat)) NDict.nil))
        (NDict.cons "a:b" (NVal.leaf 2) NDict.nil)) "" ":"
      = [("a:b", 2)] ∧
    lookupA (flatten (NDict.cons "a" (NVal.node (NDict.cons "b" (NVal.leaf (1 : Nat)) NDict.nil))
        (NDict.cons "a:b" (NVal.leaf 2) NDict.nil)) "" ":") "a:b" ≠ some 1 ∧
    flatten (NDict.cons "a" (NVal.node (NDict.cons "b" (NVal.leaf (1 : Nat)) NDict.nil))
        (NDict.cons "c" (NVal.leaf 2) NDict.nil)) "" ":"
      = [("a:b", 1), ("c", 2)] := by
  refine ⟨by decide, by decide, by decide⟩

/- ### C6: labeled merge by attachment (src/uv/util/attachment.py) -/

/-- `ChainMap.__getitem__`: look the key up in each map in order; the first
map containing it provides the value. -/
def chainGet {V : Type} : List (List (String × V)) → String → Option V
  | [], _ => none
  | m :: rest, k =>
    match lookupA m k with
    | some v => some v
    | none => chainGet rest k

/-- Key list of `dict.update` run over a sequence: keys in first-seen
order, duplicates dropped. -/
def seenKeys (l : List String) : List String :=
  l.foldl (fun acc k => if k ∈ acc then acc else acc ++ [k]) []

/-- The keys written by `for mapping in reversed(self.maps): d.update(mapping)`
(`ChainMap.__iter__`): keys of the last map first, then new keys of each
earlier map. -/
def chainMapKeys {V : Type} : List (List (String × V)) → List String
  | [] => []
  | m :: rest => seenKeys (chainMapKeys rest ++ m.map Prod.fst)

/-- `dict(ChainMap(maps...))`: iterate the chain's keys and look each one
up through the chain (first map wins). -/
def dictOfChainMap {V : Type} (maps : List (List (String × V))) :
    List (String × V) :=
  (chainMapKeys maps).filterMap (fun k => (chainGet maps k).map (fun v => (k, v)))

/-- `_by_attachment(ms, prefix)` (src/uv/util/attachment.py):
`dict(ChainMap(*(attach(m, a, prefix) for a, m in ms.items())))`. -/
def byAttachment {V : Type} (ms : List (Attachment × List (String × V)))
    (isPre : Bool) : List (String × V) :=
  dictOfChainMap (ms.map (fun lm => attachMap lm.2 lm.1 isPre))

/-- `by_prefix(ms)` (src/uv/util/attachment.py). -/
def byPrefixA {V : Type} (ms : List (Attachment × List (String × V))) :
    List (String × V) :=
  byAttachment ms true

/-- `by_suffix(ms)` (src/uv/util/attachment.py). -/
def bySuffixA {V : Type} (ms : List (Attachment × List (String × V))) :
    List (String × V) :=
  byAttachment ms false

/-- Modelled from the spec claim wording for comparison: the union of the
attached labeled maps in which, on a key collision, the value from the LAST
label in iteration order wins. -/
def byAttachmentLastWins {V : Type}
    (ms : List (Attachment × List (String × V))) (isPre : Bool) :
    List (String × V) :=
  ms.foldl
    (fun acc lm =>
      (attachMap lm.2 lm.1 isPre).foldl (fun acc kv => dictInsert acc kv.1 kv.2) acc)
    []

/-- C6 counterexample: with labels `a.b` (map sending `c` to 1) and `a`
(map sending `b.c` to 2), both labeled entries attach to the key `a.b.c`;
`by_prefix` keeps the value 1 of the FIRST label while the claim's
last-label-wins merge would keep 2, so the claim is false on the code. -/
theorem uv_C6_counterexample_first_label_wins :
    lookupA (byPrefixA
        [(Attachment.str "a.b", [("c", (1 : Nat))]),
         (Attachment.str "a", [("b.c", 2)])]) "a.b.c" = some 1 ∧
    lookupA (byAttachmentLastWins
        [(Attachment.str "a.b", [("c", (1 : Nat))]),
         (Attachment.str "a", [("b.c", 2)])] true) "a.b.c" = some 2 ∧
    byPrefixA
        [(Attachment.str "a.b", [("c", (1 : Nat))]),
         (Attachment.str "a", [("b.c", 2)])]
      ≠ byAttachmentLastWins
        [(Attachment.str "a.b", [("c", (1 : Nat))]),
         (Attachment.str "a", [("b.c", 2)])] true := by
  refine ⟨by decide, by decide, by decide⟩

theorem lookupA_eq_none_iff {V : Type} (m : List (String × V)) (k : String) :
    lookupA m k = none ↔ k ∉ m.map Prod.fst := by
  induction m with
  | nil => simp [lookupA]
  | cons hd tl ih =>
    obtain ⟨k', v⟩ := hd
    by_cases h : k' = k
    · subst h
      simp [lookupA]
    · simp [lookupA, h, ih, Ne.symm h]

theorem mem_foldl_seen (l : List String) (k : String) :
    ∀ acc, k ∈ l.foldl (fun acc k => if k ∈ acc then acc else acc ++ [k]) acc
      ↔ k ∈ acc ∨ k ∈ l := by
  induction l with
  | nil => intro acc; simp
  | cons a tl ih =>
    intro acc
    simp only [List.foldl_cons, ih, List.mem_cons]
    by_cases ha : a ∈ acc
    · simp only [if_pos ha]
      constructor
      · rintro (h | h)
        · exact Or.inl h
        · exact Or.inr (Or.inr h)
      · rintro (h | h | h)
        · exact Or.inl h
        · exact Or.inl (h ▸ ha)
        · exact Or.inr h
    · simp only [if_neg ha, List.mem_append, List.mem_singleton]
      constructor
      · rintro ((h | h) | h)
        · exact Or.inl h
        · exact Or.inr (Or.inl h)
        · exact Or.inr (Or.inr h)
      · rintro (h | h | h)
        · exact Or.inl (Or.inl h)
        · exact Or.inl (Or.inr h)
        · exact Or.inr h

theorem mem_seenKeys (l : List String) (k : String) :
    k ∈ seenKeys l ↔ k ∈ l := by
  rw [seenKeys, mem_foldl_seen]
  simp

theorem mem_chainMapKeys {V : Type} (maps : List (List (String × V)))
    (k : String) :
    k ∈ chainMapKeys maps ↔ ∃ m ∈ maps, k ∈ m.map Prod.fst := by
  induction maps with
  | nil => simp [chainMapKeys]
  | cons m rest ih =>
    simp only [chainMapKeys, mem_seenKeys, List.mem_append, ih, List.mem_cons]
    constructor
    · rintro (⟨m', hm', hk⟩ | h)
      · exact ⟨m', Or.inr hm', hk⟩
      · exact ⟨m, Or.inl rfl, h⟩
    · rintro ⟨m', hm' | hm', hk⟩
      · exact Or.inr (hm' ▸ hk)
      · exact Or.inl ⟨m', hm', hk⟩

theorem chainGet_eq_none_iff {V : Type} (maps : List (List (String × V)))
    (k : String) :
    chainGet maps k = none ↔ ∀ m ∈ maps, lookupA m k = none := by
  induction maps with
  | nil => simp [chainGet]
  | cons m rest ih =>
    simp only [chainGet]
    cases h : lookupA m k with
    | some v =>
      simp only [List.mem_cons]
      constructor
      · intro hc; cases hc
      · intro hall
        have := hall m (Or.inl rfl)
        rw [h] at this
        cases this
    | none =>
      simp only [ih, List.mem_cons]
      constructor
      · rintro hall m' (rfl | hm')
        · exact h
        · exact hall m' hm'
      · intro hall m' hm'
        exact hall m' (Or.inr hm')

theorem lookupA_filterMap_chain {V : Type} (ks : List String)
    (f : String → Option V) (k : String) :
    lookupA (ks.filterMap (fun x => (f x).map (fun v => (x, v)))) k =
      if k ∈ ks then f k else none := by
  induction ks with
  | nil => simp [lookupA]
  | cons a tl ih =>
    by_cases hak : a = k
    · subst hak
      cases hfa : f a with
      | none =>
        simp only [List.filterMap_cons, hfa, Option.map_none', ih]
        simp [hfa]
      | some v =>
        simp [List.filterMap_cons, hfa, lookupA]
    · cases hfa : f a with
      | none =>
        simp only [List.filterMap_cons, hfa, Option.map_none', ih]
        simp [List.mem_cons, Ne.symm hak]
      | some v =>
        simp only [List.filterMap_cons, hfa, Option.map_some', lookupA,
          if_neg hak, ih]
        simp [List.mem_cons, Ne.symm hak]

theorem lookupA_dictOfChainMap {V : Type} (maps : List (List (String × V)))
    (k : String) :
    lookupA (dictOfChainMap maps) k = chainGet maps k := by
  rw [dictOfChainMap, lookupA_filterMap_chain]
  by_cases hk : k ∈ chainMapKeys maps
  · simp [hk]
  · rw [if_neg hk]
    rw [mem_chainMapKeys] at hk
    push_neg at hk
    symm
    rw [chainGet_eq_none_iff]
    intro m hm
    rw [lookupA_eq_none_iff]
    exact hk m hm

/-- C6 amended: `by_prefix` (and `by_suffix`) return the union of
`attach(mi, labeli)` over all labels, and when two labeled entries produce
the same attached key, the value from the FIRST label in the iteration
order of `ms` wins (`dict(ChainMap(...))` resolves every key through the
earliest map containing it); a key is absent from the result exactly when
it is absent from every attached map. -/
theorem uv_C6_by_attachment_first_label_wins {V : Type}
    (ms : List (Attachment × List (String × V))) (isPre : Bool) (k : String) :
    lookupA (byAttachment ms isPre) k =
        chainGet (ms.map (fun lm => attachMap lm.2 lm.1 isPre)) k ∧
    lookupA (byPrefixA ms) k =
        chainGet (ms.map (fun lm => attachMap lm.2 lm.1 true)) k ∧
    lookupA (bySuffixA ms) k =
        chainGet (ms.map (fun lm => attachMap lm.2 lm.1 false)) k ∧
    (lookupA (byAttachment ms isPre) k = none ↔
      ∀ lm ∈ ms, lookupA (attachMap lm.2 lm.1 isPre) k = none) := by
  refine ⟨lookupA_dictOfChainMap _ _, lookupA_dictOfChainMap _ _,
    lookupA_dictOfChainMap _ _, ?_⟩
  rw [byAttachment, lookupA_dictOfChainMap, chainGet_eq_none_iff]
  constructor
  · intro hall lm hlm
    exact hall _ (List.mem_map_of_mem _ hlm)
  · intro hall m hm
    rw [List.mem_map] at hm
    obtain ⟨lm, hlm, rfl⟩ := hm
    exact hall lm hlm

/- ### C7: FilterValuesReporter (src/uv/reporter/base.py) -/

/-- The entries a `FilterValuesReporter` call delivers to its base reporter
and to its optional on-false reporter. -/
structure FilterDelivery (V : Type) where
  toBase : List (String × V)
  toOnFalse : List (String × V)
deriving DecidableEq

/-- `FilterValuesReporter.report_all` (src/uv/reporter/base.py): split the
batch into `good` (predicate true of `(step, v)`) and `bad` (predicate
false), send `good` to the base and `bad` to the on-false reporter when one
was supplied.  The source's emptiness guards only skip delivering an empty
batch, which delivers nothing either way. -/
def filterValuesReportAll {V : Type} (pred : Nat → V → Bool)
    (hasOnFalse : Bool) (step : Nat) (m : List (String × V)) :
    FilterDelivery V :=
  let good := m.filter (fun kv => pred step kv.2)
  let bad := m.filter (fun kv => !(pred step kv.2))
  ⟨good, if hasOnFalse then bad else []⟩

/-- `FilterValuesReporter.report` (src/uv/reporter/base.py): the singleton
goes to the base when the predicate holds, else to the on-false reporter
when one was supplied, else nowhere. -/
def filterValuesReport {V : Type} (pred : Nat → V → Bool) (hasOnFalse : Bool)
    (step : Nat) (k : String) (v : V) : FilterDelivery V :=
  if pred step v then ⟨[(k, v)], []⟩
  else if hasOnFalse then ⟨[], [(k, v)]⟩
  else ⟨[], []⟩

/-- C7: Filter partition completeness.  Every entry of the batch goes to
exactly one destination: the base receives exactly the entries whose value
passes the predicate at this step, the on-false reporter receives exactly
the complement when supplied and nothing when not, and base plus on-false
deliveries together are a permutation of the batch (no entry duplicated or
lost); `report` applies the same test to the singleton batch. -/
theorem uv_C7_filter_partition_completeness {V : Type} (pred : Nat → V → Bool)
    (hasOnFalse : Bool) (step : Nat) (m : List (String × V)) (k : String)
    (v : V) :
    (filterValuesReportAll pred hasOnFalse step m).toBase
        = m.filter (fun kv => pred step kv.2) ∧
    (filterValuesReportAll pred hasOnFalse step m).toOnFalse
        = (if hasOnFalse then m.filter (fun kv => !(pred step kv.2)) else []) ∧
    ((filterValuesReportAll pred true step m).toBase ++
        (filterValuesReportAll pred true step m).toOnFalse).Perm m ∧
    (∀ kv, kv ∈ (filterValuesReportAll pred hasOnFalse step m).toBase ↔
        kv ∈ m ∧ pred step kv.2 = true) ∧
    filterValuesReport pred hasOnFalse step k v
        = filterValuesReportAll pred hasOnFalse step [(k, v)] := by
  refine ⟨rfl, rfl, ?_, ?_, ?_⟩
  · simpa [filterValuesReportAll] using
      List.filter_append_perm (fun kv => pred step kv.2) m
  · intro kv
    simp [filterValuesReportAll, List.mem_filter]
  · by_cases hp : pred step v
    · simp [filterValuesReport, filterValuesReportAll, hp]
    · cases hasOnFalse
      · simp [filterValuesReport, filterValuesReportAll, hp]
      · simp [filterValuesReport, filterValuesReportAll, hp]

/- ### C8: missing-key totality of readers (src/uv/reader/store.py,
src/uv/reader/base.py) -/

/-- `EmptyReader.read` (src/uv/reader/store.py): the empty list for every
key. -/
def emptyReaderRead (V : Type) (_k : String) : List V := []

/-- `EmptyReader.read_all` (src/uv/reader/store.py): every requested key
mapped to the empty list. -/
def emptyReaderReadAll (V : Type) (ks : List String) :
    List (String × List V) :=
  ks.map (fun k => (k, ([] : List V)))

/-- C8 counterexample: requesting key `a` through a `PrefixedReader` with
attachment `p` over an `EmptyReader` returns the map keyed by the ATTACHED
key `p.a`; the requested key `a` itself is absent from the `read_all`
result, contradicting the claim that every requested key is present. -/
theorem uv_C8_counterexample_prefixed_read_all_keys :
    prefixedReaderReadAll (emptyReaderReadAll Nat) (Attachment.str "p") ["a"]
        = [("p.a", [])] ∧
    lookupA (prefixedReaderReadAll (emptyReaderReadAll Nat)
        (Attachment.str "p") ["a"]) "a" = none ∧
    attach_s "a" (Attachment.str "p") true ≠ "a" := by
  refine ⟨by decide, by decide, by decide⟩

/-- C8 amended: `read` never fails and returns `[]` for keys with no
records, for `EmptyReader`, `MemoryReader` and prefixed/suffixed wrappers
over them; `EmptyReader.read_all` and `MemoryReader.read_all` contain every
requested key, mapped to its records (`[]` when the store has none); a
`PrefixedReader`/`SuffixedReader`'s `read_all` instead returns the base's
map keyed by the attached keys, where every attached key is present and
resolves to the base records (`[]` when missing). -/
theorem uv_C8_missing_key_totality {V : Type} (store : List (String × List V))
    (ks : List String) (k : String) (a : Attachment) :
    emptyReaderRead V k = [] ∧
    lookupA (emptyReaderReadAll V ks) k
        = (if k ∈ ks then some [] else none) ∧
    lookupA (memReaderReadAll store ks) k
        = (if k ∈ ks then some (memReaderRead store k) else none) ∧
    memReaderRead ([] : List (String × List V)) k = [] ∧
    prefixedReaderRead (memReaderRead store) a k
        = memReaderRead store (attach_s k a true) ∧
    suffixedReaderRead (memReaderRead store) a k
        = memReaderRead store (attach_s k a false) ∧
    lookupA (prefixedReaderReadAll (memReaderReadAll store) a ks)
        (attach_s k a true)
      = (if attach_s k a true ∈ attachIter ks a true then
          some (memReaderRead store (attach_s k a true)) else none) ∧
    lookupA (suffixedReaderReadAll (memReaderReadAll store) a ks)
        (attach_s k a false)
      = (if attach_s k a false ∈ attachIter ks a false then
          some (memReaderRead store (attach_s k a false)) else none) := by
  refine ⟨rfl, ?_, ?_, rfl, rfl, rfl, ?_, ?_⟩
  · simpa [emptyReaderReadAll] using
      lookupA_map_pair ks (fun _ => ([] : List V)) k
  · simpa [memReaderReadAll, memReaderRead] using
      lookupA_map_pair ks (fun x => (lookupA store x).getD []) k
  · simpa [prefixedReaderReadAll, memReaderReadAll, memReaderRead] using
      lookupA_map_pair (attachIter ks a true)
        (fun x => (lookupA store x).getD []) (attach_s k a true)
  · simpa [suffixedReaderReadAll, memReaderReadAll, memReaderRead] using
      lookupA_map_pair (attachIter ks a false)
        (fun x => (lookupA store x).getD []) (attach_s k a false)

/- ### C9: MultiReporter fan-out (src/uv/reporter/base.py) -/

/-- `MultiReporter.report_all` (src/uv/reporter/base.py):
`for r in self._reporters: r.report_all(step, m)`, over reporters modelled
as transformers of the shared backing state, applied in construction
order. -/
def multiReporterReportAll {V σ : Type}
    (reporters : List (Nat → List (String × V) → σ → σ)) (step : Nat)
    (m : List (String × V)) (s : σ) : σ :=
  reporters.foldl (fun s r => r step m s) s

/-- `MultiReporter.report` (src/uv/reporter/base.py):
`for r in self._reporters: r.report(step, k, v)`. -/
def multiReporterReport {V σ : Type}
    (reporters : List (Nat → String → V → σ → σ)) (step : Nat) (k : String)
    (v : V) (s : σ) : σ :=
  reporters.foldl (fun s r => r step k v s) s

theorem multiReport_replicate_memRead {V : Type} (n : Nat) (step : Nat)
    (k : String) (v : V) (store : List (String × List V)) :
    memReaderRead
        (multiReporterReport (List.replicate n memReporterReport) step k v store)
        k
      = memReaderRead store k ++ List.replicate n v := by
  induction n generalizing store with
  | zero => simp [multiReporterReport]
  | succ n ih =>
    rw [List.replicate_succ]
    show memReaderRead
        (multiReporterReport (List.replicate n memReporterReport) step k v
          (memReporterReport step k v store)) k = _
    rw [ih]
    have hmem : memReaderRead (memReporterReport step k v store) k
        = memReaderRead store k ++ [v] := by
      simp [memReporterReport, memReporterReportAll, memReaderRead,
        lookupA_setdefaultAppend_self]
    rw [hmem, List.replicate_succ]
    simp

theorem multiReportAll_singleton_eq_multiReport {V : Type} (n : Nat)
    (step : Nat) (k : String) (v : V) (store : List (String × List V)) :
    multiReporterReportAll (List.replicate n memReporterReportAll) step
        [(k, v)] store
      = multiReporterReport (List.replicate n memReporterReport) step k v
          store := by
  rw [multiReporterReportAll, multiReporterReport]
  induction n generalizing store with
  | zero => rfl
  | succ n ih =>
    rw [List.replicate_succ, List.replicate_succ, List.foldl_cons,
      List.foldl_cons]
    simpa [memReporterReport] using ih (memReporterReportAll step [(k, v)] store)

/-- C9: Multi-broadcast fan-out.  For every `n >= 1`, broadcasting one
`report(step, k, v)` call (or a `report_all` with the singleton batch)
through a `MultiReporter` over `n` `MemoryReporter` views of one shared
backing store appends exactly `n` copies of `v` to the list stored under
the key, the reporters being applied in construction order by the fold. -/
theorem uv_C9_multi_broadcast_fan_out (V : Type) (n : Nat) (_hn : 1 ≤ n)
    (step : Nat) (k : String) (v : V) (store : List (String × List V)) :
    memReaderRead
        (multiReporterReport (List.replicate n memReporterReport) step k v store)
        k
      = memReaderRead store k ++ List.replicate n v ∧
    memReaderRead
        (multiReporterReportAll (List.replicate n memReporterReportAll) step
          [(k, v)] store) k
      = memReaderRead store k ++ List.replicate n v := by
  refine ⟨multiReport_replicate_memRead n step k v store, ?_⟩
  rw [multiReportAll_singleton_eq_multiReport]
  exact multiReport_replicate_memRead n step k v store

/-- C9 witness: the fan-out theorem applied at two shared `MemoryReporter`
views of an empty store. -/
theorem uv_C9_multi_broadcast_fan_out_witness :
    memReaderRead
        (multiReporterReport (List.replicate 2 memReporterReport) 3 "loss"
          (5 : Nat) []) "loss"
      = memReaderRead ([] : List (String × List Nat)) "loss"
          ++ List.replicate 2 5 ∧
    memReaderRead
        (multiReporterReportAll (List.replicate 2 memReporterReportAll) 3
          [("loss", (5 : Nat))] []) "loss"
      = memReaderRead ([] : List (String × List Nat)) "loss"
          ++ List.replicate 2 5 :=
  uv_C9_multi_broadcast_fan_out Nat 2 (by decide) 3 "loss" 5 []

/- ### C10: MultiReporter does not broadcast parameters
(src/uv/reporter/base.py) -/

/-- `AbstractReporter.report_param` default (src/uv/reporter/base.py):
`return None` — no state is touched and no wrapped reporter is invoked. -/
def abstractReportParamDefault {σ : Type} (_k _v : String) (s : σ) : σ := s

/-- `AbstractReporter.report_params` default (src/uv/reporter/base.py):
`return None`. -/
def abstractReportParamsDefault {σ : Type} (_m : List (String × String))
    (s : σ) : σ := s

/-- `MemoryReporter.report_param` (src/uv/reporter/store.py):
`self._params[k] = v`. -/
def memReporterReportParam (k v : String)
    (params : List (String × String)) : List (String × String) :=
  dictInsert params k v

/-- `MemoryReporter.report_params` (src/uv/reporter/store.py):
`self._params.update(m)`. -/
def memReporterReportParams (m : List (String × String))
    (params : List (String × String)) : List (String × String) :=
  m.foldl (fun acc kv => dictInsert acc kv.1 kv.2) params

/-- `MultiReporter.report_param`: the class defines only `report_all`,
`report` and `close` (src/uv/reporter/base.py), so `report_param` resolves
through the MRO to the inherited `AbstractReporter` default, which returns
None without calling any wrapped reporter.  The wrapped reporters' own
param handlers `rs` are carried in the signature to record that none of
them is invoked. -/
def multiReporterReportParam {σ : Type}
    (_rs : List (String → String → σ → σ)) (k v : String) (s : σ) : σ :=
  abstractReportParamDefault k v s

/-- `MultiReporter.report_params`: likewise the inherited no-op default. -/
def multiReporterReportParams {σ : Type}
    (_rs : List (List (String × String) → σ → σ))
    (m : List (String × String)) (s : σ) : σ :=
  abstractReportParamsDefault m s

/-- C10: `MultiReporter` silently discards run-level parameters.  For every
family of wrapped param handlers and every shared param store,
`report_param` and `report_params` leave the store untouched (the inherited
default returns None and never invokes a wrapped reporter), even though a
wrapped `MemoryReporter` would have recorded the parameter had it been
called — while the same `MultiReporter` does fan out `report`. -/
theorem uv_C10_multi_reporter_discards_params :
    (∀ (σ : Type) (rs : List (String → String → σ → σ)) (k v : String)
        (s : σ), multiReporterReportParam rs k v s = s) ∧
    (∀ (σ : Type) (rs : List (List (String × String) → σ → σ))
        (m : List (String × String)) (s : σ),
      multiReporterReportParams rs m s = s) ∧
    multiReporterReportParam [memReporterReportParam] "lr" "0.1" [] = [] ∧
    memReporterReportParam "lr" "0.1" [] = [("lr", "0.1")] ∧
    multiReporterReportParams [memReporterReportParams] [("lr", "0.1")] []
        = [] ∧
    memReporterReportParams [("lr", "0.1")] [] = [("lr", "0.1")] ∧
    multiReporterReport [memReporterReport] 0 "lr" (1 : Nat) []
        = [("lr", [1])] := by
  refine ⟨fun σ rs k v s => rfl, fun σ rs m s => rfl, rfl, rfl, rfl, rfl, ?_⟩
  decide
